import Mathlib

/-!
Shallow embedding of `pw_ai_foundation` (packages/python/pw-ai-foundation):

* `models/base.py` — `class BaseModel(PydanticBaseModel)` with
  `model_config = ConfigDict(validate_assignment=True, use_enum_values=True,
  arbitrary_types_allowed=True)` and `to_dict(self) = self.model_dump()`.
  We embed the pydantic-v2 semantics this configuration selects: lax (non-strict)
  field validation at construction, re-validation of single fields on attribute
  assignment, enum members stored as their underlying `.value`, and recursive
  serialization of nested models by `model_dump`.

* `utils/logging.py` — `configure_logging(level="INFO", format_string=None)`
  which resolves `getattr(logging, level.upper())` and calls
  `logging.basicConfig(level=..., format=..., handlers=[StreamHandler(sys.stdout)])`.
  We embed the CPython `logging` module state that this call touches: the root
  logger's handler list and level, the module's upper-case attributes reachable
  through `getattr(logging, level.upper())`, and `basicConfig`'s behaviour of
  doing nothing when the root logger already has handlers.
-/

namespace PwAiFoundation

/-- A Python runtime value, restricted to the shapes the model claims exercise:
strings, ints, enum members (carrying their enum class name and underlying
`.value`), `BaseModel` instances (their field states), and plain dicts. -/
inductive Value where
  | vStr (s : String)
  | vInt (n : Int)
  | vEnumMember (cls : String) (val : Value)
  | vModel (fields : List (String × Value))
  | vDict (fields : List (String × Value))
deriving Repr

/-- A declared field annotation on a `BaseModel` subclass: `str`, `int`, an
enum class (identified by name, with the list of its members' `.value`s), or a
nested `BaseModel` subclass with its own declared fields. -/
inductive FieldType where
  | tStr
  | tInt
  | tEnum (cls : String) (memberValues : List Value)
  | tModel (schema : List (String × FieldType))
deriving Repr

/-- First-match association-list lookup (Python attribute/dict lookup). -/
def lookupField {α : Type} : List (String × α) → String → Option α
  | [], _ => none
  | (k, v) :: rest, n => if k = n then some v else lookupField rest n

/-- Pydantic lax `int` parsing of a string: an optional sign followed by a
non-empty run of decimal digits (the coercion pydantic v2 applies when a `str`
is supplied for an `int` field in non-strict mode). -/
def parseIntStr? (s : String) : Option Int :=
  let core : List Char → Option Nat := fun ds =>
    if ds ≠ [] ∧ ds.all Char.isDigit then
      some (ds.foldl (fun acc c => acc * 10 + (c.toNat - 48)) 0)
    else none
  match s.toList with
  | '-' :: rest => (core rest).map (fun n => -(n : Int))
  | '+' :: rest => (core rest).map (fun n => (n : Int))
  | l => (core l).map (fun n => (n : Int))

/-- Is a value a plain primitive (a `str` or an `int`)? -/
def Value.isPrim : Value → Bool
  | .vStr _ => true
  | .vInt _ => true
  | _ => false

mutual

/-- Python `==` on runtime values: structural equality (deep on dicts and on
model instances, as pydantic model equality compares field values). -/
def Value.beq : Value → Value → Bool
  | .vStr a, .vStr b => a = b
  | .vInt a, .vInt b => a = b
  | .vEnumMember c v, .vEnumMember c' v' => c = c' && Value.beq v v'
  | .vModel fs, .vModel gs => beqFields fs gs
  | .vDict fs, .vDict gs => beqFields fs gs
  | _, _ => false

/-- Pointwise equality of field lists. -/
def beqFields : List (String × Value) → List (String × Value) → Bool
  | [], [] => true
  | (n, v) :: rest, (n', v') :: rest' =>
      n = n' && Value.beq v v' && beqFields rest rest'
  | _, _ => false

end

/-- Membership of a value in a list of values, up to Python `==`. -/
def memV (v : Value) (vals : List Value) : Bool :=
  vals.any (fun w => Value.beq v w)

mutual

/-- Pydantic-v2 lax validation of one value against one field annotation, as
configured by `BaseModel.model_config` (`use_enum_values=True`; `strict` left
at its default `False`).  Returns the value that gets **stored** on success:

* `str` fields accept exactly `str` values (lax mode does not stringify ints);
* `int` fields accept `int` values and numeric strings (lax `int_parsing`),
  and reject everything else;
* enum fields accept a member of the same enum class, or a raw value equal to
  some member's `.value`; with `use_enum_values=True` the stored result is the
  underlying `.value`, never the member;
* nested-model fields accept an instance of the nested model or a dict, and
  validate its fields recursively, storing a model instance. -/
def validateField : FieldType → Value → Option Value
  | .tStr, .vStr s => some (.vStr s)
  | .tStr, _ => none
  | .tInt, .vInt n => some (.vInt n)
  | .tInt, .vStr s => (parseIntStr? s).map Value.vInt
  | .tInt, _ => none
  | .tEnum cls vals, .vEnumMember c v =>
      if c = cls ∧ memV v vals then some v else none
  | .tEnum _ vals, v =>
      if memV v vals then some v else none
  | .tModel schema, .vModel fs => (validateFields schema fs).map Value.vModel
  | .tModel schema, .vDict fs => (validateFields schema fs).map Value.vModel
  | .tModel _, _ => none

/-- Validation of a whole keyword mapping against a declared schema, in
declared-field order: every declared field must be supplied and validate
(pydantic fails construction otherwise); extra keys are ignored
(pydantic-v2 default `extra="ignore"`). -/
def validateFields : List (String × FieldType) → List (String × Value) →
    Option (List (String × Value))
  | [], _ => some []
  | (n, t) :: rest, input =>
    match lookupField input n with
    | none => none
    | some v =>
      match validateField t v, validateFields rest input with
      | some v', some vs => some ((n, v') :: vs)
      | _, _ => none

end

/-- The state of a `BaseModel` instance: its class's declared fields and the
current (validated) field values. -/
structure Model where
  schema : List (String × FieldType)
  fields : List (String × Value)
deriving Repr

/-- The two error shapes the embedded operations can raise. -/
inductive PyErr where
  | validationError (field : String)
  | noSuchField (field : String)
  | attributeError (name : String)
  | valueError
deriving Repr, DecidableEq

/-- `TestModel(**input)` — pydantic construction: validate every declared
field against the supplied mapping; atomically fail otherwise. -/
def construct (schema : List (String × FieldType)) (input : List (String × Value)) :
    Option Model :=
  (validateFields schema input).map (fun fs => ⟨schema, fs⟩)

/-- Replace the (first) binding of `n`. -/
def updateField : List (String × Value) → String → Value → List (String × Value)
  | [], _, _ => []
  | (k, w) :: rest, n, v =>
    if k = n then (k, v) :: rest else (k, w) :: updateField rest n v

/-- `model.n = v` under `validate_assignment=True`: pydantic's `__setattr__`
re-validates the single field with the same validator as construction and only
then stores the result; an unknown field or a failing validation raises and
stores nothing.  Returns the post-state together with the raised error, if
any. -/
def setattr (m : Model) (n : String) (v : Value) : Model × Option PyErr :=
  match lookupField m.schema n with
  | none => (m, some (.noSuchField n))
  | some t =>
    match validateField t v with
    | none => (m, some (.validationError n))
    | some v' => (⟨m.schema, updateField m.fields n v'⟩, none)

mutual

/-- `model_dump` serialization of one stored value: nested model instances
become plain dicts, recursively; primitives pass through. -/
def dumpValue : Value → Value
  | .vModel fs => .vDict (dumpFields fs)
  | .vDict fs => .vDict (dumpFields fs)
  | .vStr s => .vStr s
  | .vInt n => .vInt n
  | .vEnumMember c v => .vEnumMember c v

/-- `model_dump` over a field list. -/
def dumpFields : List (String × Value) → List (String × Value)
  | [] => []
  | (n, v) :: rest => (n, dumpValue v) :: dumpFields rest

end

/-- `BaseModel.to_dict`, which the source defines as `return self.model_dump()`:
a pure snapshot of the current fields with nested models rendered as dicts. -/
def to_dict (m : Model) : List (String × Value) := dumpFields m.fields

mutual

/-- A value contains no symbolic enum reference at any depth. -/
def Value.enumFree : Value → Bool
  | .vEnumMember _ _ => false
  | .vModel fs => enumFreeFields fs
  | .vDict fs => enumFreeFields fs
  | .vStr _ => true
  | .vInt _ => true

/-- All values of a field list are enum-reference free. -/
def enumFreeFields : List (String × Value) → Bool
  | [] => true
  | (_, v) :: rest => v.enumFree && enumFreeFields rest

end

mutual

/-- A value contains no model instance at any depth (it is "a plain key-value
structure"). -/
def Value.modelFree : Value → Bool
  | .vModel _ => false
  | .vDict fs => modelFreeFields fs
  | .vEnumMember _ v => v.modelFree
  | .vStr _ => true
  | .vInt _ => true

/-- All values of a field list are model-instance free. -/
def modelFreeFields : List (String × Value) → Bool
  | [] => true
  | (_, v) :: rest => v.modelFree && modelFreeFields rest

end

mutual

/-- Well-formedness of a declared schema, mirroring how Python enum classes
are declared in practice: every enum member's `.value` is a plain primitive
(a `str` or an `int`), also inside nested model types. -/
def FieldType.wf : FieldType → Bool
  | .tStr => true
  | .tInt => true
  | .tEnum _ vals => vals.all Value.isPrim
  | .tModel schema => wfSchema schema

/-- Well-formedness of every declared field type of a schema. -/
def wfSchema : List (String × FieldType) → Bool
  | [] => true
  | (_, t) :: rest => t.wf && wfSchema rest

end

/-! ### The `logging` side (`utils/logging.py`) -/

/-- The output stream a `logging.StreamHandler` writes to. -/
inductive Stream where
  | stdout
  | stderr
deriving Repr, DecidableEq

/-- A configured handler: its target stream and the format string of the
`Formatter` that `basicConfig` attaches to it. -/
structure Handler where
  stream : Stream
  format : String
deriving Repr, DecidableEq

/-- The root logger's mutable state: its handler list and its level.  A fresh
CPython root logger has no handlers and level `WARNING = 30`. -/
structure RootLogger where
  handlers : List Handler
  level : Int
deriving Repr, DecidableEq

/-- The root logger at interpreter start. -/
def freshRoot : RootLogger := ⟨[], 30⟩

/-- The result of `getattr(logging, name)` for an upper-case `name`: either a
level constant (an `int`) or the string constant `BASIC_FORMAT`. -/
inductive LoggingAttr where
  | levelConst (n : Int)
  | strConst (s : String)
deriving Repr, DecidableEq

/-- CPython `logging`'s upper-case level constants, which double as the keys
of `logging._nameToLevel` (the table `_checkLevel` accepts level names from).
Note it is a strict superset of the five documented severities: `WARN`,
`FATAL` and `NOTSET` are level constants too. -/
def levelConstants : List (String × Int) :=
  [("CRITICAL", 50), ("FATAL", 50), ("ERROR", 40), ("WARNING", 30),
   ("WARN", 30), ("INFO", 20), ("DEBUG", 10), ("NOTSET", 0)]

/-- The upper-case module attributes of CPython's `logging` (the only ones
reachable through `getattr(logging, level.upper())`): the level constants
`CRITICAL/FATAL/ERROR/WARNING/WARN/INFO/DEBUG/NOTSET` and the string
`BASIC_FORMAT`.  Any other upper-case name raises `AttributeError`. -/
def loggingModuleAttr (name : String) : Option LoggingAttr :=
  match lookupField levelConstants name with
  | some n => some (.levelConst n)
  | none =>
    if name = "BASIC_FORMAT" then
      some (.strConst "%(levelname)s:%(name)s:%(message)s")
    else none

/-- The argument CPython's `Logger.setLevel` accepts: an `int` or a `str`. -/
inductive LevelArg where
  | int (n : Int)
  | str (s : String)
deriving Repr, DecidableEq

/-- CPython `logging._checkLevel`: an `int` passes through; a `str` must be a
key of `_nameToLevel`, otherwise `setLevel` raises `ValueError`. -/
def checkLevel : LevelArg → Option Int
  | .int n => some n
  | .str s => lookupField levelConstants s

/-- CPython `logging.basicConfig(level=…, format=…, handlers=[h])` with no
`force` argument: **if the root logger already has handlers it does nothing at
all** (neither handlers nor level change); otherwise it attaches a `Formatter`
built from `format` to the supplied handler, adds it to the root logger, and
then sets the root level (raising `ValueError` if the level argument is an
unrecognised string — after the handler was already added). -/
def basicConfig (root : RootLogger) (level : Option LevelArg) (format : String)
    (handler : Stream) : RootLogger × Option PyErr :=
  if root.handlers.isEmpty then
    let root1 : RootLogger := ⟨[⟨handler, format⟩], root.level⟩
    match level with
    | none => (root1, none)
    | some l =>
      match checkLevel l with
      | some n => (⟨root1.handlers, n⟩, none)
      | none => (root1, some .valueError)
  else (root, none)

/-- Python `str.upper()` (over the ASCII names used for logging levels). -/
def pyUpper (s : String) : String := ⟨s.data.map Char.toUpper⟩

/-- The default format string from the source:
`"%(asctime)s - %(name)s - %(levelname)s - %(message)s"`. -/
def defaultFormat : String := "%(asctime)s - %(name)s - %(levelname)s - %(message)s"

/-- `configure_logging(level, format_string)` from `utils/logging.py`:
substitute the default format when none is given, resolve
`getattr(logging, level.upper())` (raising `AttributeError` for an unknown
name, before anything is mutated), and call
`basicConfig(level=…, format=…, handlers=[StreamHandler(sys.stdout)])`. -/
def configure_logging (root : RootLogger) (level : String)
    (format_string : Option String) : RootLogger × Option PyErr :=
  let fs := format_string.getD defaultFormat
  match loggingModuleAttr (pyUpper level) with
  | none => (root, some (.attributeError (pyUpper level)))
  | some (.levelConst n) => basicConfig root (some (.int n)) fs .stdout
  | some (.strConst s) => basicConfig root (some (.str s)) fs .stdout

/-! ### Helper lemmas -/

theorem lookupField_dumpFields (fs : List (String × Value)) (n : String) :
    lookupField (dumpFields fs) n = (lookupField fs n).map dumpValue := by
  induction fs with
  | nil => simp [dumpFields, lookupField]
  | cons p rest ih =>
    obtain ⟨k, v⟩ := p
    by_cases h : k = n <;> simp [dumpFields, lookupField, h, ih]

theorem dumpFields_keys (fs : List (String × Value)) :
    (dumpFields fs).map Prod.fst = fs.map Prod.fst := by
  induction fs with
  | nil => simp [dumpFields]
  | cons p rest ih =>
    obtain ⟨k, v⟩ := p
    simp [dumpFields, ih]

theorem validateFields_keys (schema : List (String × FieldType))
    (input out : List (String × Value))
    (h : validateFields schema input = some out) :
    out.map Prod.fst = schema.map Prod.fst := by
  induction schema generalizing out with
  | nil =>
    simp only [validateFields, Option.some.injEq] at h
    simp [← h]
  | cons p rest ih =>
    obtain ⟨n, t⟩ := p
    simp only [validateFields] at h
    cases hl : lookupField input n with
    | none => simp only [hl] at h; exact absurd h (by simp)
    | some v =>
      simp only [hl] at h
      cases hv : validateField t v with
      | none => simp only [hv] at h; exact absurd h (by simp)
      | some v' =>
        cases hr : validateFields rest input with
        | none => simp only [hv, hr] at h; exact absurd h (by simp)
        | some vs =>
          simp only [hv, hr, Option.some.injEq] at h
          subst h
          simp [ih vs hr]

theorem validateFields_lookup (schema : List (String × FieldType))
    (input out : List (String × Value)) (n : String) (t : FieldType)
    (hv : validateFields schema input = some out)
    (hs : lookupField schema n = some t) :
    ∃ v v', lookupField input n = some v ∧ validateField t v = some v' ∧
      lookupField out n = some v' := by
  induction schema generalizing out with
  | nil => simp [lookupField] at hs
  | cons p rest ih =>
    obtain ⟨k, u⟩ := p
    simp only [validateFields] at hv
    cases hl : lookupField input k with
    | none => simp only [hl] at hv; exact absurd hv (by simp)
    | some w =>
      simp only [hl] at hv
      cases hw : validateField u w with
      | none => simp only [hw] at hv; exact absurd hv (by simp)
      | some w' =>
        cases hr : validateFields rest input with
        | none => simp only [hw, hr] at hv; exact absurd hv (by simp)
        | some vs =>
          simp only [hw, hr, Option.some.injEq] at hv
          subst hv
          by_cases hk : k = n
          · subst hk
            simp [lookupField] at hs
            subst hs
            exact ⟨w, w', hl, hw, by simp [lookupField]⟩
          · simp only [lookupField, if_neg hk] at hs
            obtain ⟨v, v', h1, h2, h3⟩ := ih vs hr hs
            exact ⟨v, v', h1, h2, by simp [lookupField, if_neg hk, h3]⟩

theorem beq_isPrim (v w : Value) (hw : w.isPrim = true)
    (h : Value.beq v w = true) : v = w := by
  cases w <;> simp [Value.isPrim] at hw <;> cases v <;> simp_all [Value.beq]

theorem memV_isPrim (v : Value) (vals : List Value)
    (hvals : vals.all Value.isPrim = true) (h : memV v vals = true) :
    v.isPrim = true := by
  simp only [memV, List.any_eq_true] at h
  obtain ⟨w, hw, hbeq⟩ := h
  simp only [List.all_eq_true] at hvals
  have hwp := hvals w hw
  rw [beq_isPrim v w hwp hbeq]
  exact hwp

theorem validateField_tEnum_isPrim (cls : String) (vals : List Value)
    (v v' : Value) (hvals : vals.all Value.isPrim = true)
    (h : validateField (.tEnum cls vals) v = some v') : v'.isPrim = true := by
  cases v with
  | vEnumMember c w =>
    simp only [validateField] at h
    split at h
    · rename_i hc
      simp only [Option.some.injEq] at h
      subst h
      exact memV_isPrim _ _ hvals hc.2
    · exact absurd h (by simp)
  | vStr s =>
    simp only [validateField] at h
    split at h
    · rename_i hc
      simp only [Option.some.injEq] at h
      subst h
      exact memV_isPrim _ _ hvals hc
    · exact absurd h (by simp)
  | vInt n =>
    simp only [validateField] at h
    split at h
    · rename_i hc
      simp only [Option.some.injEq] at h
      subst h
      exact memV_isPrim _ _ hvals hc
    · exact absurd h (by simp)
  | vModel fs =>
    simp only [validateField] at h
    split at h
    · rename_i hc
      simp only [Option.some.injEq] at h
      subst h
      exact memV_isPrim _ _ hvals hc
    · exact absurd h (by simp)
  | vDict fs =>
    simp only [validateField] at h
    split at h
    · rename_i hc
      simp only [Option.some.injEq] at h
      subst h
      exact memV_isPrim _ _ hvals hc
    · exact absurd h (by simp)

theorem isPrim_enumFree (v : Value) (h : v.isPrim = true) : v.enumFree = true := by
  cases v <;> simp_all [Value.isPrim, Value.enumFree]

theorem isPrim_modelFree (v : Value) (h : v.isPrim = true) : v.modelFree = true := by
  cases v <;> simp_all [Value.isPrim, Value.modelFree]

theorem isPrim_dumpValue (v : Value) (h : v.isPrim = true) : dumpValue v = v := by
  cases v <;> simp_all [Value.isPrim, dumpValue]

mutual

theorem validateField_enumFree (t : FieldType) (v v' : Value)
    (hwf : t.wf = true) (h : validateField t v = some v') :
    v'.enumFree = true := by
  cases t with
  | tStr =>
    cases v with
    | vStr s =>
      simp only [validateField, Option.some.injEq] at h
      subst h
      simp [Value.enumFree]
    | vInt n => exact absurd h (by simp [validateField])
    | vEnumMember c w => exact absurd h (by simp [validateField])
    | vModel fs => exact absurd h (by simp [validateField])
    | vDict fs => exact absurd h (by simp [validateField])
  | tInt =>
    cases v with
    | vInt n =>
      simp only [validateField, Option.some.injEq] at h
      subst h
      simp [Value.enumFree]
    | vStr s =>
      simp only [validateField] at h
      cases hp : parseIntStr? s with
      | none => simp only [hp] at h; exact absurd h (by simp)
      | some k =>
        simp only [hp, Option.map_some', Option.some.injEq] at h
        subst h
        simp [Value.enumFree]
    | vEnumMember c w => exact absurd h (by simp [validateField])
    | vModel fs => exact absurd h (by simp [validateField])
    | vDict fs => exact absurd h (by simp [validateField])
  | tEnum cls vals =>
    simp only [FieldType.wf] at hwf
    exact isPrim_enumFree v' (validateField_tEnum_isPrim cls vals v v' hwf h)
  | tModel schema =>
    simp only [FieldType.wf] at hwf
    cases v with
    | vModel fs =>
      simp only [validateField] at h
      cases hr : validateFields schema fs with
      | none => simp only [hr] at h; exact absurd h (by simp)
      | some out =>
        simp only [hr, Option.map_some', Option.some.injEq] at h
        subst h
        simp only [Value.enumFree]
        exact validateFields_enumFree schema fs out hwf hr
    | vDict fs =>
      simp only [validateField] at h
      cases hr : validateFields schema fs with
      | none => simp only [hr] at h; exact absurd h (by simp)
      | some out =>
        simp only [hr, Option.map_some', Option.some.injEq] at h
        subst h
        simp only [Value.enumFree]
        exact validateFields_enumFree schema fs out hwf hr
    | vStr s => exact absurd h (by simp [validateField])
    | vInt n => exact absurd h (by simp [validateField])
    | vEnumMember c w => exact absurd h (by simp [validateField])
termination_by sizeOf t

theorem validateFields_enumFree (schema : List (String × FieldType))
    (input out : List (String × Value)) (hwf : wfSchema schema = true)
    (h : validateFields schema input = some out) :
    enumFreeFields out = true := by
  match schema with
  | [] =>
    simp only [validateFields, Option.some.injEq] at h
    subst h
    simp [enumFreeFields]
  | (n, t) :: rest =>
    simp only [validateFields] at h
    cases hl : lookupField input n with
    | none => simp only [hl] at h; exact absurd h (by simp)
    | some v =>
      simp only [hl] at h
      cases hv : validateField t v with
      | none => simp only [hv] at h; exact absurd h (by simp)
      | some v' =>
        cases hr : validateFields rest input with
        | none => simp only [hv, hr] at h; exact absurd h (by simp)
        | some vs =>
          simp only [hv, hr, Option.some.injEq] at h
          subst h
          simp only [wfSchema, Bool.and_eq_true] at hwf
          simp only [enumFreeFields, Bool.and_eq_true]
          exact ⟨validateField_enumFree t v v' hwf.1 hv,
            validateFields_enumFree rest input vs hwf.2 hr⟩
termination_by sizeOf schema

end

mutual

theorem dumpValue_modelFree (v : Value) (h : v.enumFree = true) :
    (dumpValue v).modelFree = true := by
  cases v with
  | vStr s => simp [dumpValue, Value.modelFree]
  | vInt n => simp [dumpValue, Value.modelFree]
  | vEnumMember c w => simp [Value.enumFree] at h
  | vModel fs =>
    simp only [Value.enumFree] at h
    simp only [dumpValue, Value.modelFree]
    exact dumpFields_modelFree fs h
  | vDict fs =>
    simp only [Value.enumFree] at h
    simp only [dumpValue, Value.modelFree]
    exact dumpFields_modelFree fs h
termination_by sizeOf v

theorem dumpFields_modelFree (fs : List (String × Value))
    (h : enumFreeFields fs = true) :
    modelFreeFields (dumpFields fs) = true := by
  match fs with
  | [] => simp [dumpFields, modelFreeFields]
  | (n, v) :: rest =>
    simp only [enumFreeFields, Bool.and_eq_true] at h
    simp only [dumpFields, modelFreeFields, Bool.and_eq_true]
    exact ⟨dumpValue_modelFree v h.1, dumpFields_modelFree rest h.2⟩
termination_by sizeOf fs

end

theorem updateField_keys (fs : List (String × Value)) (n : String) (v : Value) :
    (updateField fs n v).map Prod.fst = fs.map Prod.fst := by
  induction fs with
  | nil => simp [updateField]
  | cons p rest ih =>
    obtain ⟨k, w⟩ := p
    by_cases h : k = n <;> simp [updateField, h, ih]

theorem lookupField_updateField_self (fs : List (String × Value)) (n : String)
    (v w : Value) (h : lookupField fs n = some w) :
    lookupField (updateField fs n v) n = some v := by
  induction fs with
  | nil => simp [lookupField] at h
  | cons p rest ih =>
    obtain ⟨k, u⟩ := p
    by_cases hk : k = n
    · simp [updateField, lookupField, hk]
    · simp only [lookupField, if_neg hk] at h
      simp [updateField, lookupField, hk, ih h]

/-! ### Claim theorems -/

/-- C1, counterexample: the mapping `{"value": "42"}` validates against a
record type with field `value: int` (pydantic lax mode parses the numeric
string), yet `Construct` followed by `ToDict` returns `{"value": 42}`, which
differs from the supplied mapping and involves no enum-typed value — so
"ToDict returns a mapping exactly equal to the supplied field values, except
for enum reduction" fails. -/
theorem c1_roundtrip_counterexample :
    construct [("value", FieldType.tInt)] [("value", Value.vStr "42")]
      = some ⟨[("value", FieldType.tInt)], [("value", Value.vInt 42)]⟩ ∧
    to_dict ⟨[("value", FieldType.tInt)], [("value", Value.vInt 42)]⟩
      = [("value", Value.vInt 42)] ∧
    [("value", Value.vInt 42)] ≠ [("value", Value.vStr "42")] := by
  refine ⟨?_, ?_, ?_⟩
  · simp [construct, validateFields, validateField, lookupField, parseIntStr?]
  · simp [to_dict, dumpFields, dumpValue]
  · simp

/-- C1 (amended): for every declared field whose supplied value is stored
unchanged by validation (i.e. it is of the declared type, so no lax coercion
and no enum reduction applies) and is serialized to itself, `Construct`
followed by `ToDict` reports exactly the supplied value at that field, and the
keys of the `ToDict` mapping are exactly the declared fields; supplied values
that validate only through a coercion (numeric strings, enum members) are
reported in their stored, reduced form instead. -/
theorem c1_construct_to_dict (schema : List (String × FieldType))
    (input : List (String × Value)) (m : Model) (n : String) (t : FieldType)
    (hc : construct schema input = some m)
    (hn : lookupField schema n = some t)
    (hid : ∀ v, lookupField input n = some v →
      validateField t v = some v ∧ dumpValue v = v) :
    lookupField (to_dict m) n = lookupField input n ∧
    (to_dict m).map Prod.fst = schema.map Prod.fst := by
  simp only [construct] at hc
  cases hf : validateFields schema input with
  | none => rw [hf] at hc; exact absurd hc (by simp)
  | some fs =>
    rw [hf] at hc
    simp only [Option.map_some', Option.some.injEq] at hc
    subst hc
    constructor
    · obtain ⟨v, v', h1, h2, h3⟩ := validateFields_lookup schema input fs n t hf hn
      obtain ⟨hval, hdump⟩ := hid v h1
      rw [hval] at h2
      simp only [Option.some.injEq] at h2
      subst h2
      simp only [to_dict, lookupField_dumpFields, h3, h1, Option.map_some', hdump]
    · simp only [to_dict, dumpFields_keys]
      exact validateFields_keys schema input fs hf

/-- C1, witness: the spec's concrete scenario — `Construct(name="test",
value=42)` then `ToDict` reports `value = 42`, the supplied value. -/
theorem c1_construct_to_dict_witness :
    lookupField
        (to_dict ⟨[("name", FieldType.tStr), ("value", FieldType.tInt)],
          [("name", Value.vStr "test"), ("value", Value.vInt 42)]⟩) "value"
      = lookupField [("name", Value.vStr "test"), ("value", Value.vInt 42)] "value" ∧
    (to_dict ⟨[("name", FieldType.tStr), ("value", FieldType.tInt)],
        [("name", Value.vStr "test"), ("value", Value.vInt 42)]⟩).map Prod.fst
      = [("name", FieldType.tStr), ("value", FieldType.tInt)].map Prod.fst :=
  c1_construct_to_dict [("name", FieldType.tStr), ("value", FieldType.tInt)]
    [("name", Value.vStr "test"), ("value", Value.vInt 42)] _ "value" FieldType.tInt
    (by simp [construct, validateFields, validateField, lookupField])
    (by simp [lookupField])
    (by
      intro v hv
      simp [lookupField] at hv
      subst hv
      simp [validateField, dumpValue])

/-- C2, counterexample: `Configure("warn")` succeeds — `"warn".upper()` is
`"WARN"`, which is not one of the five recognized severities, yet
`getattr(logging, "WARN")` resolves to the level constant `30`, so the call
installs a handler and sets the threshold to `WARNING` instead of failing. -/
theorem c2_level_counterexample :
    (configure_logging freshRoot "warn" none).2 = none ∧
    (configure_logging freshRoot "warn" none).1.level = 30 ∧
    pyUpper "warn" ∉ ["DEBUG", "INFO", "WARNING", "ERROR", "CRITICAL"] := by
  refine ⟨?_, ?_, ?_⟩ <;>
    simp [configure_logging, loggingModuleAttr, levelConstants, lookupField,
      basicConfig, checkLevel, freshRoot, pyUpper, defaultFormat]

/-- C2 (amended): on a handler-free root logger, `Configure(level)` succeeds
exactly when `level.upper()` is one of the `logging` module's level-constant
names — the five severities plus `WARN`, `FATAL` and `NOTSET` — and on success
it sets the effective threshold to that constant's value; every other string
makes it fail with an error and no default level is substituted. -/
theorem c2_configure_level (root : RootLogger) (s : String)
    (hroot : root.handlers = []) :
    ((configure_logging root s none).2 = none ↔
      (lookupField levelConstants (pyUpper s)).isSome = true) ∧
    (∀ n, lookupField levelConstants (pyUpper s) = some n →
      (configure_logging root s none).1.level = n) := by
  have hempty : root.handlers.isEmpty = true := by simp [hroot]
  cases hl : lookupField levelConstants (pyUpper s) with
  | some n =>
    simp [configure_logging, loggingModuleAttr, hl, basicConfig, checkLevel, hempty]
  | none =>
    by_cases hb : pyUpper s = "BASIC_FORMAT"
    · simp [configure_logging, loggingModuleAttr, hl, hb, basicConfig, checkLevel,
        hempty, levelConstants, lookupField]
    · simp [configure_logging, loggingModuleAttr, hl, hb]

/-- C2, witness: `Configure("Error")` on a fresh root succeeds and sets the
threshold to `ERROR = 40`. -/
theorem c2_configure_level_witness :
    ((configure_logging freshRoot "Error" none).2 = none ↔
      (lookupField levelConstants (pyUpper "Error")).isSome = true) ∧
    (∀ n, lookupField levelConstants (pyUpper "Error") = some n →
      (configure_logging freshRoot "Error" none).1.level = n) :=
  c2_configure_level freshRoot "Error" (by simp [freshRoot])

/-- C3, counterexample: `Configure("INFO")` followed by `Configure("DEBUG")`
leaves the root logger exactly as the first call configured it — level
`INFO = 20`, not `DEBUG = 10` — because `logging.basicConfig` does nothing
when the root logger already has handlers; so "re-applies the configuration
with the last call winning" fails. -/
theorem c3_last_call_counterexample :
    (configure_logging (configure_logging freshRoot "INFO" none).1 "DEBUG" none).1
      = (configure_logging freshRoot "INFO" none).1 ∧
    (configure_logging (configure_logging freshRoot "INFO" none).1 "DEBUG" none).1.level
      = 20 ∧ (20 : Int) ≠ 10 := by
  refine ⟨?_, ?_, by decide⟩ <;>
    simp [configure_logging, loggingModuleAttr, levelConstants, lookupField,
      basicConfig, checkLevel, freshRoot, pyUpper, defaultFormat]

/-- C3 (amended): on a handler-free root, `Configure` (with a resolvable
level name) installs exactly one handler writing to standard output and sets
the threshold; once the root has handlers, a further `Configure` changes
nothing at all — handlers never accumulate, but it is the first call, not the
last, that wins. -/
theorem c3_configure_handlers (root : RootLogger) (s : String)
    (fmt : Option String) (n : Int)
    (hl : lookupField levelConstants (pyUpper s) = some n) :
    (root.handlers = [] →
      (configure_logging root s fmt).1.handlers
        = [⟨Stream.stdout, fmt.getD defaultFormat⟩] ∧
      (configure_logging root s fmt).1.level = n ∧
      (configure_logging root s fmt).2 = none) ∧
    (root.handlers ≠ [] →
      (configure_logging root s fmt).1 = root ∧
      (configure_logging root s fmt).2 = none) := by
  constructor
  · intro hroot
    have hempty : root.handlers.isEmpty = true := by simp [hroot]
    simp [configure_logging, loggingModuleAttr, hl, basicConfig, checkLevel, hempty]
  · intro hroot
    have hempty : root.handlers.isEmpty = false := by
      simpa [List.isEmpty_iff] using hroot
    simp [configure_logging, loggingModuleAttr, hl, basicConfig, checkLevel, hempty]

/-- C3, witness: the first `Configure("INFO")` on a fresh root installs the
single stdout handler with the default format and level `20`; a second
`Configure` on the resulting root changes nothing. -/
theorem c3_configure_handlers_witness :
    ((freshRoot.handlers = [] →
      (configure_logging freshRoot "INFO" none).1.handlers
        = [⟨Stream.stdout, (none : Option String).getD defaultFormat⟩] ∧
      (configure_logging freshRoot "INFO" none).1.level = 20 ∧
      (configure_logging freshRoot "INFO" none).2 = none) ∧
    (freshRoot.handlers ≠ [] →
      (configure_logging freshRoot "INFO" none).1 = freshRoot ∧
      (configure_logging freshRoot "INFO" none).2 = none)) :=
  c3_configure_handlers freshRoot "INFO" none 20
    (by simp [levelConstants, lookupField, pyUpper])

/-- C4, counterexample: assigning the string `"7"` to an integer-typed field
succeeds — pydantic's lax mode silently coerces the numeric string to the int
`7` — so "passing a string for an integer-typed field fails" does not hold. -/
theorem c4_coercion_counterexample :
    (setattr ⟨[("value", FieldType.tInt)], [("value", Value.vInt 0)]⟩
        "value" (Value.vStr "7")).2 = none ∧
    (setattr ⟨[("value", FieldType.tInt)], [("value", Value.vInt 0)]⟩
        "value" (Value.vStr "7")).1.fields = [("value", Value.vInt 7)] := by
  constructor <;>
    simp [setattr, lookupField, validateField, parseIntStr?, updateField]

/-- C4 (amended): values that do not fit a field even under the validator's
own lax coercion rules are rejected with a validation error, never silently
accepted: a non-numeric string supplied for an integer field fails both
`Construct` and `Assign` (leaving the instance unchanged), and an int
supplied for a string field fails; a numeric string, however, is coerced to
the corresponding int by those lax rules rather than rejected. -/
theorem c4_incompatible_rejected (s : String) (k : Int)
    (flds : List (String × Value)) (hns : parseIntStr? s = none) :
    construct [("value", FieldType.tInt)] [("value", Value.vStr s)] = none ∧
    (setattr ⟨[("value", FieldType.tInt)], flds⟩ "value" (Value.vStr s)).2
      = some (.validationError "value") ∧
    (setattr ⟨[("value", FieldType.tInt)], flds⟩ "value" (Value.vStr s)).1
      = ⟨[("value", FieldType.tInt)], flds⟩ ∧
    validateField FieldType.tStr (Value.vInt k) = none ∧
    (∀ j : Int, parseIntStr? s = some j →
      validateField FieldType.tInt (Value.vStr s) = some (Value.vInt j)) := by
  refine ⟨?_, ?_, ?_, ?_, ?_⟩
  · simp [construct, validateFields, validateField, lookupField, hns]
  · simp [setattr, lookupField, validateField, hns]
  · simp [setattr, lookupField, validateField, hns]
  · simp [validateField]
  · intro j hj; rw [hns] at hj; exact absurd hj (by simp)

/-- C4, witness: the spec's concrete scenario — `value="not_an_int"` is
rejected by construction and by assignment, and an int never validates for a
string field. -/
theorem c4_incompatible_rejected_witness :
    construct [("value", FieldType.tInt)] [("value", Value.vStr "not_an_int")]
      = none ∧
    (setattr ⟨[("value", FieldType.tInt)], [("value", Value.vInt 0)]⟩
        "value" (Value.vStr "not_an_int")).2 = some (.validationError "value") ∧
    (setattr ⟨[("value", FieldType.tInt)], [("value", Value.vInt 0)]⟩
        "value" (Value.vStr "not_an_int")).1
      = ⟨[("value", FieldType.tInt)], [("value", Value.vInt 0)]⟩ ∧
    validateField FieldType.tStr (Value.vInt 5) = none ∧
    (∀ j : Int, parseIntStr? "not_an_int" = some j →
      validateField FieldType.tInt (Value.vStr "not_an_int")
        = some (Value.vInt j)) :=
  c4_incompatible_rejected "not_an_int" 5 [("value", Value.vInt 0)] (by decide)

/-- C5: a failed `Assign` leaves the instance exactly as it was — pydantic
validates the new value before storing anything, so on a validation error (or
an unknown field) the prior field values are unchanged. -/
theorem c5_failed_assign_unchanged (m m' : Model) (n : String) (v : Value)
    (e : PyErr) (h : setattr m n v = (m', some e)) : m' = m := by
  simp only [setattr] at h
  cases hs : lookupField m.schema n with
  | none =>
    simp only [hs, Prod.mk.injEq] at h
    exact h.1.symm
  | some t =>
    simp only [hs] at h
    cases hv : validateField t v with
    | none =>
      simp only [hv, Prod.mk.injEq] at h
      exact h.1.symm
    | some v' =>
      simp only [hv, Prod.mk.injEq] at h
      exact absurd h.2 (by simp)

/-- C5, witness: assigning the int `3` to the `str` field `name` fails and the
instance still holds its prior value. -/
theorem c5_failed_assign_unchanged_witness :
    (setattr ⟨[("name", FieldType.tStr)], [("name", Value.vStr "a")]⟩
        "name" (Value.vInt 3)).1
      = ⟨[("name", FieldType.tStr)], [("name", Value.vStr "a")]⟩ :=
  c5_failed_assign_unchanged _ _ "name" (Value.vInt 3)
    (PyErr.validationError "name")
    (by simp [setattr, lookupField, validateField])

/-- C6: for every constructed instance and every enum-typed field (of an enum
whose member values are primitives, as Python enums in serializable models
are), the stored value is a plain primitive — never a symbolic enum member —
and `ToDict` reports that same primitive for the field. -/
theorem c6_enum_fields_primitive (schema : List (String × FieldType))
    (input : List (String × Value)) (m : Model) (n cls : String)
    (vals : List Value) (hc : construct schema input = some m)
    (hs : lookupField schema n = some (.tEnum cls vals))
    (hw : vals.all Value.isPrim = true) :
    ∃ w, lookupField m.fields n = some w ∧ w.isPrim = true ∧
      lookupField (to_dict m) n = some w := by
  simp only [construct] at hc
  cases hf : validateFields schema input with
  | none => rw [hf] at hc; exact absurd hc (by simp)
  | some fs =>
    rw [hf] at hc
    simp only [Option.map_some', Option.some.injEq] at hc
    subst hc
    obtain ⟨v, v', h1, h2, h3⟩ :=
      validateFields_lookup schema input fs n (.tEnum cls vals) hf hs
    have hp : v'.isPrim = true := validateField_tEnum_isPrim cls vals v v' hw h2
    refine ⟨v', h3, hp, ?_⟩
    simp only [to_dict, lookupField_dumpFields, h3, Option.map_some',
      isPrim_dumpValue v' hp]

/-- C6, witness: constructing with the enum member `Color.RED` (value
`"red"`) stores and reports the primitive `"red"`. -/
theorem c6_enum_fields_primitive_witness :
    ∃ w, lookupField
        (Model.mk [("color", FieldType.tEnum "Color" [Value.vStr "red", Value.vStr "green"])]
          [("color", Value.vStr "red")]).fields "color" = some w ∧
      w.isPrim = true ∧
      lookupField
        (to_dict (Model.mk
          [("color", FieldType.tEnum "Color" [Value.vStr "red", Value.vStr "green"])]
          [("color", Value.vStr "red")])) "color" = some w :=
  c6_enum_fields_primitive
    [("color", FieldType.tEnum "Color" [Value.vStr "red", Value.vStr "green"])]
    [("color", Value.vEnumMember "Color" (Value.vStr "red"))] _ "color" "Color"
    [Value.vStr "red", Value.vStr "green"]
    (by simp [construct, validateFields, validateField, lookupField, memV,
      Value.beq])
    (by simp [lookupField]) (by decide)

/-- C7: `ToDict` is a pure snapshot — its keys are exactly the instance's
field names and its value at each name is the (serialized) current field
value; after a successful `Assign` the same holds for the updated instance,
whose keys are unchanged, so repeated calls return the same mapping and
reflect the latest assigned values. -/
theorem c7_to_dict_snapshot (m m' : Model) (n : String) (v : Value)
    (h : setattr m n v = (m', none)) :
    (to_dict m).map Prod.fst = m.fields.map Prod.fst ∧
    (∀ k, lookupField (to_dict m) k = (lookupField m.fields k).map dumpValue) ∧
    (to_dict m').map Prod.fst = (to_dict m).map Prod.fst ∧
    (∀ k, lookupField (to_dict m') k = (lookupField m'.fields k).map dumpValue) := by
  refine ⟨dumpFields_keys m.fields, fun k => lookupField_dumpFields m.fields k,
    ?_, fun k => lookupField_dumpFields m'.fields k⟩
  simp only [setattr] at h
  cases hs : lookupField m.schema n with
  | none => simp only [hs, Prod.mk.injEq] at h; exact absurd h.2 (by simp)
  | some t =>
    simp only [hs] at h
    cases hv : validateField t v with
    | none => simp only [hv, Prod.mk.injEq] at h; exact absurd h.2 (by simp)
    | some v' =>
      simp only [hv, Prod.mk.injEq] at h
      rw [← h.1]
      simp [to_dict, dumpFields_keys, updateField_keys]

/-- C7, witness: after assigning `value := 7`, `ToDict` of the new instance
has the same keys and maps each field to its current value. -/
theorem c7_to_dict_snapshot_witness :
    (to_dict ⟨[("value", FieldType.tInt)], [("value", Value.vInt 0)]⟩).map Prod.fst
      = [("value", Value.vInt 0)].map Prod.fst ∧
    (∀ k, lookupField (to_dict ⟨[("value", FieldType.tInt)], [("value", Value.vInt 0)]⟩) k
      = (lookupField [("value", Value.vInt 0)] k).map dumpValue) ∧
    (to_dict (setattr ⟨[("value", FieldType.tInt)], [("value", Value.vInt 0)]⟩
        "value" (Value.vInt 7)).1).map Prod.fst
      = (to_dict ⟨[("value", FieldType.tInt)], [("value", Value.vInt 0)]⟩).map Prod.fst ∧
    (∀ k, lookupField
        (to_dict (setattr ⟨[("value", FieldType.tInt)], [("value", Value.vInt 0)]⟩
          "value" (Value.vInt 7)).1) k
      = (lookupField (setattr ⟨[("value", FieldType.tInt)], [("value", Value.vInt 0)]⟩
          "value" (Value.vInt 7)).1.fields k).map dumpValue) :=
  c7_to_dict_snapshot ⟨[("value", FieldType.tInt)], [("value", Value.vInt 0)]⟩
    _ "value" (Value.vInt 7)
    (by simp [setattr, lookupField, validateField, updateField])

/-- C8: when `Configure` is called without a format argument (on a
handler-free root, with a resolvable level name), the handler it installs
carries the default format string, which interpolates the timestamp
(`asctime`), the logger name, the severity level and the message, in that
order. -/
theorem c8_default_format (root : RootLogger) (s : String) (n : Int)
    (hroot : root.handlers = [])
    (hl : lookupField levelConstants (pyUpper s) = some n) :
    (configure_logging root s none).1.handlers
      = [⟨Stream.stdout, defaultFormat⟩] ∧
    defaultFormat = "%(asctime)s" ++ " - " ++ "%(name)s" ++ " - " ++
      "%(levelname)s" ++ " - " ++ "%(message)s" := by
  have hempty : root.handlers.isEmpty = true := by simp [hroot]
  constructor
  · simp [configure_logging, loggingModuleAttr, hl, basicConfig, checkLevel, hempty]
  · rfl

/-- C8, witness: `Configure("INFO")` on a fresh root installs the default
format. -/
theorem c8_default_format_witness :
    (configure_logging freshRoot "INFO" none).1.handlers
      = [⟨Stream.stdout, defaultFormat⟩] ∧
    defaultFormat = "%(asctime)s" ++ " - " ++ "%(name)s" ++ " - " ++
      "%(levelname)s" ++ " - " ++ "%(message)s" :=
  c8_default_format freshRoot "INFO" 20 (by simp [freshRoot])
    (by simp [levelConstants, lookupField, pyUpper])

/-- C9: for a constructed instance (of a well-formed schema), `ToDict`
contains no model instance at any depth — every nested-model field is
rendered as a plain key-value mapping, recursively. -/
theorem c9_to_dict_model_free (schema : List (String × FieldType))
    (input : List (String × Value)) (m : Model)
    (hwf : wfSchema schema = true) (hc : construct schema input = some m) :
    modelFreeFields (to_dict m) = true ∧
    (∀ n fs, lookupField m.fields n = some (Value.vModel fs) →
      lookupField (to_dict m) n = some (Value.vDict (dumpFields fs))) := by
  simp only [construct] at hc
  cases hf : validateFields schema input with
  | none => rw [hf] at hc; exact absurd hc (by simp)
  | some fs =>
    rw [hf] at hc
    simp only [Option.map_some', Option.some.injEq] at hc
    subst hc
    constructor
    · exact dumpFields_modelFree fs (validateFields_enumFree schema input fs hwf hf)
    · intro n gs hn
      simp only [to_dict, lookupField_dumpFields, hn, Option.map_some', dumpValue]

/-- C9, witness: a record with a nested-record field `inner` containing
`x = 1`, built from a plain dict, serializes to a dict of dicts with no model
instance anywhere. -/
theorem c9_to_dict_model_free_witness :
    modelFreeFields (to_dict (Model.mk
      [("inner", FieldType.tModel [("x", FieldType.tInt)])]
      [("inner", Value.vModel [("x", Value.vInt 1)])])) = true ∧
    (∀ n fs, lookupField
        (Model.mk [("inner", FieldType.tModel [("x", FieldType.tInt)])]
          [("inner", Value.vModel [("x", Value.vInt 1)])]).fields n
        = some (Value.vModel fs) →
      lookupField (to_dict (Model.mk
        [("inner", FieldType.tModel [("x", FieldType.tInt)])]
        [("inner", Value.vModel [("x", Value.vInt 1)])])) n
        = some (Value.vDict (dumpFields fs))) :=
  c9_to_dict_model_free [("inner", FieldType.tModel [("x", FieldType.tInt)])]
    [("inner", Value.vDict [("x", Value.vInt 1)])] _
    (by simp [wfSchema, FieldType.wf])
    (by simp [construct, validateFields, validateField, lookupField])

/-- C10: enum-to-primitive normalization also applies on mutation — a
successful `Assign` of an enum member (of the field's enum class, whose member
values are primitive) stores the member's underlying value, and both reading
the field and `ToDict` afterwards yield that primitive. -/
theorem c10_assign_enum_primitive (m : Model) (n cls : String)
    (vals : List Value) (v w : Value)
    (hs : lookupField m.schema n = some (.tEnum cls vals))
    (hv : memV v vals = true) (hp : vals.all Value.isPrim = true)
    (hpresent : lookupField m.fields n = some w) :
    (setattr m n (.vEnumMember cls v)).2 = none ∧
    lookupField (setattr m n (.vEnumMember cls v)).1.fields n = some v ∧
    lookupField (to_dict (setattr m n (.vEnumMember cls v)).1) n = some v := by
  have hval : validateField (.tEnum cls vals) (.vEnumMember cls v) = some v := by
    simp [validateField, hv]
  have hset : setattr m n (.vEnumMember cls v)
      = (⟨m.schema, updateField m.fields n v⟩, none) := by
    simp [setattr, hs, hval]
  have hprim : v.isPrim = true := memV_isPrim v vals hp hv
  have hlu : lookupField (updateField m.fields n v) n = some v :=
    lookupField_updateField_self m.fields n v w hpresent
  refine ⟨by simp [hset], by simp [hset, hlu], ?_⟩
  simp [hset, to_dict, lookupField_dumpFields, hlu, isPrim_dumpValue v hprim]

/-- C10, witness: on an instance holding `color = "red"`, assigning the enum
member `Color.GREEN` (value `"green"`) succeeds and stores/reports the
primitive `"green"`. -/
theorem c10_assign_enum_primitive_witness :
    (setattr ⟨[("color", FieldType.tEnum "Color" [Value.vStr "red", Value.vStr "green"])],
        [("color", Value.vStr "red")]⟩
      "color" (.vEnumMember "Color" (Value.vStr "green"))).2 = none ∧
    lookupField (setattr
        ⟨[("color", FieldType.tEnum "Color" [Value.vStr "red", Value.vStr "green"])],
          [("color", Value.vStr "red")]⟩
        "color" (.vEnumMember "Color" (Value.vStr "green"))).1.fields "color"
      = some (Value.vStr "green") ∧
    lookupField (to_dict (setattr
        ⟨[("color", FieldType.tEnum "Color" [Value.vStr "red", Value.vStr "green"])],
          [("color", Value.vStr "red")]⟩
        "color" (.vEnumMember "Color" (Value.vStr "green"))).1) "color"
      = some (Value.vStr "green") :=
  c10_assign_enum_primitive
    ⟨[("color", FieldType.tEnum "Color" [Value.vStr "red", Value.vStr "green"])],
      [("color", Value.vStr "red")]⟩
    "color" "Color" [Value.vStr "red", Value.vStr "green"]
    (Value.vStr "green") (Value.vStr "red")
    (by simp [lookupField]) (by simp [memV, Value.beq]) (by decide)
    (by simp [lookupField])

end PwAiFoundation
